import Mathlib

/-!
Verification development for the `rosu-renderer` crate: a shallow embedding of
the playback clock (`src/lib.rs`, `Player`) and the mania lane renderer
(`src/layout/mania.rs`, `ManiaRenderer`).

Conventions of the embedding:
* `f32` / `f64` values are embedded as exact rationals (`ℚ`); float literals
  become the corresponding rationals.
* `std::time::Instant` is embedded as a rational number of seconds; each
  operation that reads the wall clock takes the current instant `now : ℚ` as
  an explicit argument.  `Instant::elapsed` saturates at zero, modelled with
  `max _ 0`.
* Rust panics become `Except.error ()`; a run that panics yields no result.
* Each `egui` painter call site becomes one constructor of `DrawCmd`, carrying
  the geometric arguments the source passes to the painter.
-/

namespace RosuRenderer

/-- Color32 embedded as an (r, g, b) triple. -/
abbrev Color := ℕ × ℕ × ℕ

/-- Color32::from_rgb. -/
def colorFromRgb (r g b : ℕ) : Color := (r, g, b)

/-- Color32::from_gray(20), the column background fill. -/
def grayFill : Color := colorFromRgb 20 20 20

/-- Color32::WHITE, the judgment-line stroke color. -/
def whiteColor : Color := colorFromRgb 255 255 255

/-- egui::Pos2. -/
structure Pos2 where
  x : ℚ
  y : ℚ
  deriving DecidableEq, Repr

/-- egui::Rect, kept as min corner plus size, which is what both constructors
used by the source produce. -/
structure Rect where
  minx : ℚ
  miny : ℚ
  width : ℚ
  height : ℚ
  deriving DecidableEq, Repr

/-- Rect::from_min_size. -/
def Rect.fromMinSize (p : Pos2) (w h : ℚ) : Rect :=
  ⟨p.x, p.y, w, h⟩

/-- Rect::from_center_size. -/
def Rect.fromCenterSize (c : Pos2) (w h : ℚ) : Rect :=
  ⟨c.x - w / 2, c.y - h / 2, w, h⟩

/-! ### Playback clock: `Player` (src/lib.rs)

Only the clock and configuration fields are embedded; the `beatmap` and
`renderer` fields of the Rust struct are payload handed to the renderer
component and play no role in the clock claims. -/

/-- Player's clock/configuration state (src/lib.rs lines 8-14).
`start_time` is the reference `Instant`, in seconds. -/
structure Player where
  start_time : ℚ
  speed : ℚ
  scroll_time_ms : ℚ
  deriving DecidableEq, Repr

/-- Player::new field initialisation (src/lib.rs lines 38-44): reference
instant is `Instant::now()`, speed 1.0, scroll window 1000.0 ms. -/
def Player.new (now : ℚ) : Player :=
  { start_time := now, speed := 1, scroll_time_ms := 1000 }

/-- Player::set_speed (src/lib.rs lines 67-69): stores the argument verbatim. -/
def Player.setSpeed (p : Player) (speed : ℚ) : Player :=
  { p with speed := speed }

/-- Player::set_scroll_time (src/lib.rs lines 71-73): stores the argument
verbatim. -/
def Player.setScrollTime (p : Player) (ms : ℚ) : Player :=
  { p with scroll_time_ms := ms }

/-- Player::reset_time (src/lib.rs lines 103-105). -/
def Player.resetTime (p : Player) (now : ℚ) : Player :=
  { p with start_time := now }

/-- Player::set_current_time (src/lib.rs lines 107-109):
`start_time = Instant::now() - Duration::from_secs_f64(time_ms / 1000.0)`.
`Duration::from_secs_f64` panics when its argument is negative, which the
embedding reports as `Except.error ()`. -/
def Player.setCurrentTime (p : Player) (now time_ms : ℚ) : Except Unit Player :=
  if time_ms / 1000 < 0 then Except.error ()
  else Except.ok { p with start_time := now - time_ms / 1000 }

/-- Player::current_time (src/lib.rs lines 111-113):
`start_time.elapsed().as_secs_f64() * 1000.0`.  `Instant::elapsed` saturates
at zero when the reference lies in the future. -/
def Player.currentTime (p : Player) (now : ℚ) : ℚ :=
  max (now - p.start_time) 0 * 1000

/-- One call on the configuration surface relevant to the positivity claim. -/
inductive ConfigOp where
  | speed (s : ℚ)
  | scroll (ms : ℚ)
  deriving DecidableEq, Repr

/-- Apply a sequence of configuration calls to a player, in order. -/
def applyOps (p : Player) : List ConfigOp → Player
  | [] => p
  | ConfigOp.speed s :: rest => applyOps (p.setSpeed s) rest
  | ConfigOp.scroll ms :: rest => applyOps (p.setScrollTime ms) rest

/-- The argument of a configuration call. -/
def ConfigOp.arg : ConfigOp → ℚ
  | ConfigOp.speed s => s
  | ConfigOp.scroll ms => ms

/-! ### Mania renderer data model (src/layout/mania.rs) -/

/-- NoteShape (src/layout/mania.rs lines 4-10); the `Image` payload is an
opaque external resource and carries no data relevant to geometry. -/
inductive NoteShape where
  | circle
  | rectangle (width height : ℚ)
  | arrow (width height : ℚ)
  | image
  deriving DecidableEq, Repr

/-- NoteStyle (src/layout/mania.rs lines 12-17). -/
structure NoteStyle where
  shape : NoteShape
  color : Color
  hold_body_color : Color
  hold_cap_color : Color
  deriving DecidableEq, Repr

/-- NoteStyle::default (src/layout/mania.rs lines 19-31). -/
def NoteStyle.default : NoteStyle :=
  { shape := NoteShape.rectangle (4 / 5) (1 / 4)
    color := colorFromRgb 0 174 255
    hold_body_color := colorFromRgb 200 200 200
    hold_cap_color := colorFromRgb 0 174 255 }

/-- ManiaRenderer (src/layout/mania.rs lines 33-39).  The `speed` field is
written by `render_at` but never read by any code path, so it is kept only
for structural fidelity. -/
structure ManiaRenderer where
  column_width : ℚ
  note_size : ℚ
  speed : ℚ
  height : ℚ
  note_style : NoteStyle
  deriving DecidableEq, Repr

/-- ManiaRenderer::with_sizes (src/layout/mania.rs lines 42-50). -/
def ManiaRenderer.withSizes (column_width note_size height : ℚ) : ManiaRenderer :=
  { column_width := column_width, note_size := note_size, speed := 1
    height := height, note_style := NoteStyle.default }

/-- HitObjectKind from the rosu-map dependency: only the fields the renderer
reads are kept (`pos.x` for circles, `pos_x` and `duration` for holds). -/
inductive HitObjectKind where
  | circle (pos_x : ℚ)
  | hold (pos_x : ℚ) (duration : ℚ)
  | slider
  | spinner
  deriving DecidableEq, Repr

/-- HitObject from the rosu-map dependency. -/
structure HitObject where
  start_time : ℚ
  kind : HitObjectKind
  deriving DecidableEq, Repr

/-- One draw command per painter call site of the source.  Each constructor
carries the geometric arguments passed to the corresponding painter call. -/
inductive DrawCmd where
  /-- Column background rectangle (render_at, lines 192-199). -/
  | columnRect (r : Rect) (c : Color)
  /-- Judgment-line segment (render_at, lines 202-208). -/
  | judgmentSeg (p1 p2 : Pos2) (strokeWidth : ℚ) (c : Color)
  /-- Hold body rectangle (render_hold, lines 122-129). -/
  | holdBody (r : Rect) (c : Color)
  /-- Hold end-cap rectangle (render_hold, lines 134-138). -/
  | holdCap (r : Rect) (c : Color)
  /-- Trigger marker, circle shape (draw_note, lines 60-67). -/
  | noteCircle (center : Pos2) (radius : ℚ) (c : Color)
  /-- Trigger marker, rectangle shape (draw_note, lines 68-76). -/
  | noteRect (r : Rect) (c : Color)
  /-- Trigger marker, arrow shape (draw_note, lines 77-90). -/
  | noteArrow (pts : List Pos2) (c : Color)
  /-- Trigger marker, image shape (draw_note, lines 91-102). -/
  | noteImage (r : Rect)
  deriving DecidableEq, Repr

/-- Whether a command is a hold body or cap rectangle from render_hold. -/
def DrawCmd.isHoldRect : DrawCmd → Bool
  | DrawCmd.holdBody _ _ => true
  | DrawCmd.holdCap _ _ => true
  | _ => false

/-- Whether a command is a trigger marker emitted by draw_note. -/
def DrawCmd.isMarker : DrawCmd → Bool
  | DrawCmd.noteCircle _ _ _ => true
  | DrawCmd.noteRect _ _ => true
  | DrawCmd.noteArrow _ _ => true
  | DrawCmd.noteImage _ => true
  | _ => false

/-- Center y coordinate of a trigger marker, recovered from the geometry the
painter call received (`none` on non-marker commands or a malformed arrow). -/
def DrawCmd.markerCenterY : DrawCmd → Option ℚ
  | DrawCmd.noteCircle c _ _ => some c.y
  | DrawCmd.noteRect r _ => some (r.miny + r.height / 2)
  | DrawCmd.noteArrow pts _ =>
      match pts with
      | [p1, p2, _] => some ((p1.y + p2.y) / 2)
      | _ => none
  | DrawCmd.noteImage r => some (r.miny + r.height / 2)
  | _ => none

/-! ### Mania renderer operations -/

/-- Rust saturating `as usize` cast from a float: negative values go to 0,
values past `usize::MAX` go to `usize::MAX` (64-bit target). -/
def f32ToUsize (q : ℚ) : ℕ :=
  min (Int.toNat ⌊max q 0⌋) (2 ^ 64 - 1)

/-- Lane-index computation `(pos_x / 512.0 * keycount as f32) as usize % keycount`
(src/layout/mania.rs lines 217, 249, 254).  The `%` panics when `keycount = 0`. -/
def laneIndex (pos_x : ℚ) (keycount : ℕ) : Except Unit ℕ :=
  if keycount = 0 then Except.error ()
  else Except.ok (f32ToUsize (pos_x / 512 * keycount) % keycount)

/-- Time-to-pixel projection used (inlined three times) by render_at
(src/layout/mania.rs lines 220-230 and 240-243):
`note_time = t / speed + scroll_time_ms; time_diff = note_time - current_time;`
`y = judgment_line_y - (time_diff / scroll_time_ms) * total_height`. -/
def yProj (judgment_line_y total_height current_time scroll_time_ms speed t : ℚ) : ℚ :=
  let note_time := t / speed + scroll_time_ms
  let time_diff := note_time - current_time
  judgment_line_y - (time_diff / scroll_time_ms) * total_height

/-- Modelled from the spec: the projection formula of §4.2,
`scaled_time = event_time / speed + scroll_window_ms`,
`time_to_line = scaled_time - current_time`,
`y = judgment_line_y - (time_to_line / scroll_window_ms) * playfield_height`.
Stated separately from `yProj` so the code formula can be compared with the
spec formula. -/
def specY (judgment_line_y playfield_height current_time scroll_window_ms speed event_time : ℚ) : ℚ :=
  let scaled_time := event_time / speed + scroll_window_ms
  let time_to_line := scaled_time - current_time
  judgment_line_y - (time_to_line / scroll_window_ms) * playfield_height

/-- ManiaRenderer::draw_note (src/layout/mania.rs lines 56-104): dispatch on
the active shape, one painter call per invocation. -/
def drawNote (m : ManiaRenderer) (x_pos y_pos : ℚ) : DrawCmd :=
  let center_x := x_pos + m.column_width / 2
  match m.note_style.shape with
  | NoteShape.circle =>
      DrawCmd.noteCircle ⟨center_x, y_pos⟩ (m.note_size / 2) m.note_style.color
  | NoteShape.rectangle w h =>
      let note_width := m.note_size * w
      let note_height := m.note_size * h
      DrawCmd.noteRect (Rect.fromCenterSize ⟨center_x, y_pos⟩ note_width note_height)
        m.note_style.color
  | NoteShape.arrow w h =>
      let note_width := m.note_size * w
      let note_height := m.note_size * h
      DrawCmd.noteArrow
        [⟨center_x, y_pos - note_height / 2⟩,
         ⟨center_x + note_width / 2, y_pos + note_height / 2⟩,
         ⟨center_x - note_width / 2, y_pos + note_height / 2⟩]
        m.note_style.color
  | NoteShape.image =>
      DrawCmd.noteImage
        (Rect.fromMinSize ⟨center_x - m.note_size / 2, y_pos - m.note_size / 2⟩
          m.note_size m.note_size)

/-- ManiaRenderer::render_hold (src/layout/mania.rs lines 106-140). -/
def renderHold (m : ManiaRenderer) (x_pos start_y end_y judgment_line_y : ℚ) : List DrawCmd :=
  let note_width := m.note_size * (4 / 5)
  let x_center := x_pos + (m.column_width - note_width) / 2
  let y_start := min start_y end_y
  let y_end := min (max start_y end_y) judgment_line_y
  let visible_height := |y_end - y_start|
  let body := DrawCmd.holdBody (Rect.fromMinSize ⟨x_center, y_start⟩ note_width visible_height)
    m.note_style.hold_body_color
  let cap_height := note_width * (3 / 10)
  if end_y ≤ judgment_line_y then
    [body, DrawCmd.holdCap (Rect.fromMinSize ⟨x_center, end_y⟩ note_width cap_height)
      m.note_style.hold_cap_color]
  else
    [body]

/-- Hold pass of render_at for one hit object (src/layout/mania.rs lines
211-236): non-holds are filtered out; the lane index is computed before the
visibility test, so `keycount = 0` panics on every hold. -/
def holdCmds (m : ManiaRenderer) (current_time scroll_time_ms speed : ℚ) (keycount : ℕ)
    (position : Pos2) (judgment_line_y : ℚ) (obj : HitObject) : Except Unit (List DrawCmd) :=
  match obj.kind with
  | HitObjectKind.hold pos_x duration =>
      match laneIndex pos_x keycount with
      | Except.error e => Except.error e
      | Except.ok column =>
          let x_pos := position.x + (column : ℚ) * m.column_width
          let y_pos :=
            yProj judgment_line_y m.height current_time scroll_time_ms speed obj.start_time
          let end_y_pos := yProj judgment_line_y m.height current_time scroll_time_ms speed
            (obj.start_time + duration)
          if end_y_pos ≤ judgment_line_y then
            Except.ok (renderHold m x_pos y_pos end_y_pos judgment_line_y)
          else
            Except.ok []
  | _ => Except.ok []

/-- Trigger pass of render_at for one hit object (src/layout/mania.rs lines
238-264): the `y_pos ≤ judgment_line_y` test runs first, then the lane index
is computed for circles and holds (other kinds `continue`), then the marker is
drawn when additionally `0 ≤ y_pos`. -/
def noteCmds (m : ManiaRenderer) (current_time scroll_time_ms speed : ℚ) (keycount : ℕ)
    (position : Pos2) (judgment_line_y : ℚ) (obj : HitObject) : Except Unit (List DrawCmd) :=
  let y_pos := yProj judgment_line_y m.height current_time scroll_time_ms speed obj.start_time
  if y_pos ≤ judgment_line_y then
    match obj.kind with
    | HitObjectKind.circle pos_x =>
        match laneIndex pos_x keycount with
        | Except.error e => Except.error e
        | Except.ok column =>
            let x_pos := position.x + (column : ℚ) * m.column_width
            if 0 ≤ y_pos then Except.ok [drawNote m x_pos y_pos] else Except.ok []
    | HitObjectKind.hold pos_x _ =>
        match laneIndex pos_x keycount with
        | Except.error e => Except.error e
        | Except.ok column =>
            let x_pos := position.x + (column : ℚ) * m.column_width
            if 0 ≤ y_pos then Except.ok [drawNote m x_pos y_pos] else Except.ok []
    | _ => Except.ok []
  else
    Except.ok []

/-- Sequence a per-object pass over the hit-object list, concatenating the
emitted commands and propagating the first panic, exactly as the source's
`for` loops do. -/
def passCmds (f : HitObject → Except Unit (List DrawCmd)) :
    List HitObject → Except Unit (List DrawCmd)
  | [] => Except.ok []
  | obj :: rest =>
      match f obj with
      | Except.error e => Except.error e
      | Except.ok c =>
          match passCmds f rest with
          | Except.error e => Except.error e
          | Except.ok cs => Except.ok (c ++ cs)

/-- Static geometry of one frame (src/layout/mania.rs lines 191-208): the
column backgrounds and the judgment line. -/
def staticCmds (m : ManiaRenderer) (keycount : ℕ) (position : Pos2) : List DrawCmd :=
  let total_width := m.column_width * (keycount : ℚ)
  let total_height := m.height
  let judgment_line_y := position.y + total_height - 100
  ((List.range keycount).map fun i =>
    DrawCmd.columnRect
      (Rect.fromMinSize ⟨position.x + (i : ℚ) * m.column_width, position.y⟩
        m.column_width total_height)
      grayFill)
  ++ [DrawCmd.judgmentSeg ⟨position.x, judgment_line_y⟩
        ⟨position.x + total_width, judgment_line_y⟩ 2 whiteColor]

/-- ManiaRenderer::render_at (src/layout/mania.rs lines 166-267): static
geometry, then — when the hit-object list is non-empty — the hold pass over
all objects followed by the trigger pass over all objects.  (The
`self.speed = speed` field write is dropped: the field is never read.) -/
def renderAt (m : ManiaRenderer) (hit_objects : List HitObject)
    (current_time scroll_time_ms speed : ℚ) (keycount : ℕ) (position : Pos2) :
    Except Unit (List DrawCmd) :=
  let judgment_line_y := position.y + m.height - 100
  let static := staticCmds m keycount position
  match hit_objects with
  | [] => Except.ok static
  | _ =>
      match passCmds
          (holdCmds m current_time scroll_time_ms speed keycount position judgment_line_y)
          hit_objects with
      | Except.error e => Except.error e
      | Except.ok holds =>
          match passCmds
              (noteCmds m current_time scroll_time_ms speed keycount position judgment_line_y)
              hit_objects with
          | Except.error e => Except.error e
          | Except.ok notes => Except.ok (static ++ holds ++ notes)

/-! ### Concrete instances used by counterexamples and witnesses -/

/-- Concrete renderer: 100-wide columns, note size 50, playfield height 800,
so the judgment line of a frame at the origin sits at y = 700. -/
def mDef : ManiaRenderer := ManiaRenderer.withSizes 100 50 800

/-- Concrete hold whose end time (100 ms) lies well before current time 2000. -/
def consumedHold : HitObject := ⟨0, HitObjectKind.hold 0 100⟩

/-- Concrete circle whose trigger time (0 ms) lies well before current time 2000. -/
def pastCircle : HitObject := ⟨0, HitObjectKind.circle 0⟩

/-- Concrete hold that is actively held at current time 1000: start 0,
duration 3000. -/
def activeHold : HitObject := ⟨0, HitObjectKind.hold 0 3000⟩

/-- Concrete circle that is on screen at current time 500. -/
def visibleCircle : HitObject := ⟨0, HitObjectKind.circle 0⟩

end RosuRenderer

namespace RosuRenderer

/-! ### Shared helper lemmas -/

/-- Every shape arm of draw_note places its marker with center y equal to the
y position it was given. -/
theorem markerCenterY_drawNote (m : ManiaRenderer) (x_pos y_pos : ℚ) :
    (drawNote m x_pos y_pos).markerCenterY = some y_pos := by
  cases h : m.note_style.shape <;>
    simp [drawNote, DrawCmd.markerCenterY, Rect.fromCenterSize, Rect.fromMinSize, h]

/-- Every shape arm of draw_note emits a trigger-marker command. -/
theorem isMarker_drawNote (m : ManiaRenderer) (x y : ℚ) : (drawNote m x y).isMarker = true := by
  cases h : m.note_style.shape <;> simp [drawNote, DrawCmd.isMarker, h]

/-- No shape arm of draw_note emits a hold rectangle. -/
theorem isHoldRect_drawNote (m : ManiaRenderer) (x y : ℚ) :
    (drawNote m x y).isHoldRect = false := by
  cases h : m.note_style.shape <;> simp [drawNote, DrawCmd.isHoldRect, h]

/-- render_hold emits only hold rectangles, never markers. -/
theorem mem_renderHold (m : ManiaRenderer) (x s e j : ℚ) (c : DrawCmd)
    (h : c ∈ renderHold m x s e j) : c.isMarker = false ∧ c.isHoldRect = true := by
  simp only [renderHold] at h
  by_cases he : e ≤ j
  · rw [if_pos he] at h
    rcases List.mem_cons.mp h with rfl | h
    · exact ⟨rfl, rfl⟩
    · rw [List.mem_singleton] at h
      subst h
      exact ⟨rfl, rfl⟩
  · rw [if_neg he] at h
    rw [List.mem_singleton] at h
    subst h
    exact ⟨rfl, rfl⟩

/-- Every command the hold pass emits for an object is a hold rectangle. -/
theorem holdCmds_no_marker (m : ManiaRenderer) (current scroll speed : ℚ) (keycount : ℕ)
    (position : Pos2) (judgment_line_y : ℚ) (obj : HitObject) (cs : List DrawCmd) (c : DrawCmd)
    (hok : holdCmds m current scroll speed keycount position judgment_line_y obj = Except.ok cs)
    (hmem : c ∈ cs) : c.isMarker = false ∧ c.isHoldRect = true := by
  obtain ⟨st, kind⟩ := obj
  cases kind with
  | hold pos_x dur =>
      cases hli : laneIndex pos_x keycount with
      | error e =>
          simp only [holdCmds, hli] at hok
          exact Except.noConfusion hok
      | ok column =>
          simp only [holdCmds, hli] at hok
          by_cases hend : yProj judgment_line_y m.height current scroll speed (st + dur) ≤
              judgment_line_y
          · rw [if_pos hend] at hok
            obtain rfl := (Except.ok.injEq _ _).mp hok.symm
            exact mem_renderHold m _ _ _ _ c hmem
          · rw [if_neg hend] at hok
            obtain rfl := (Except.ok.injEq _ _).mp hok.symm
            cases hmem
  | circle pos_x =>
      simp only [holdCmds] at hok
      obtain rfl := (Except.ok.injEq _ _).mp hok.symm
      cases hmem
  | slider =>
      simp only [holdCmds] at hok
      obtain rfl := (Except.ok.injEq _ _).mp hok.symm
      cases hmem
  | spinner =>
      simp only [holdCmds] at hok
      obtain rfl := (Except.ok.injEq _ _).mp hok.symm
      cases hmem

/-- Every command the trigger pass emits for an object is a marker. -/
theorem noteCmds_no_holdRect (m : ManiaRenderer) (current scroll speed : ℚ) (keycount : ℕ)
    (position : Pos2) (judgment_line_y : ℚ) (obj : HitObject) (cs : List DrawCmd) (c : DrawCmd)
    (hok : noteCmds m current scroll speed keycount position judgment_line_y obj = Except.ok cs)
    (hmem : c ∈ cs) : c.isHoldRect = false ∧ c.isMarker = true := by
  obtain ⟨st, kind⟩ := obj
  by_cases hle : yProj judgment_line_y m.height current scroll speed st ≤ judgment_line_y
  case neg =>
    simp only [noteCmds, if_neg hle] at hok
    obtain rfl := (Except.ok.injEq _ _).mp hok.symm
    cases hmem
  case pos =>
    cases kind with
    | circle pos_x =>
        cases hli : laneIndex pos_x keycount with
        | error e =>
            simp only [noteCmds, if_pos hle, hli] at hok
            exact Except.noConfusion hok
        | ok column =>
            simp only [noteCmds, if_pos hle, hli] at hok
            by_cases h0 : (0 : ℚ) ≤ yProj judgment_line_y m.height current scroll speed st
            · rw [if_pos h0] at hok
              obtain rfl := (Except.ok.injEq _ _).mp hok.symm
              rw [List.mem_singleton] at hmem
              subst hmem
              exact ⟨isHoldRect_drawNote m _ _, isMarker_drawNote m _ _⟩
            · rw [if_neg h0] at hok
              obtain rfl := (Except.ok.injEq _ _).mp hok.symm
              cases hmem
    | hold pos_x dur =>
        cases hli : laneIndex pos_x keycount with
        | error e =>
            simp only [noteCmds, if_pos hle, hli] at hok
            exact Except.noConfusion hok
        | ok column =>
            simp only [noteCmds, if_pos hle, hli] at hok
            by_cases h0 : (0 : ℚ) ≤ yProj judgment_line_y m.height current scroll speed st
            · rw [if_pos h0] at hok
              obtain rfl := (Except.ok.injEq _ _).mp hok.symm
              rw [List.mem_singleton] at hmem
              subst hmem
              exact ⟨isHoldRect_drawNote m _ _, isMarker_drawNote m _ _⟩
            · rw [if_neg h0] at hok
              obtain rfl := (Except.ok.injEq _ _).mp hok.symm
              cases hmem
    | slider =>
        simp only [noteCmds, if_pos hle] at hok
        obtain rfl := (Except.ok.injEq _ _).mp hok.symm
        cases hmem
    | spinner =>
        simp only [noteCmds, if_pos hle] at hok
        obtain rfl := (Except.ok.injEq _ _).mp hok.symm
        cases hmem

/-- The static geometry contains neither markers nor hold rectangles. -/
theorem mem_staticCmds (m : ManiaRenderer) (keycount : ℕ) (position : Pos2) (c : DrawCmd)
    (h : c ∈ staticCmds m keycount position) : c.isMarker = false ∧ c.isHoldRect = false := by
  simp only [staticCmds, List.mem_append, List.mem_map, List.mem_singleton, List.mem_range] at h
  rcases h with ⟨i, -, rfl⟩ | rfl
  · exact ⟨rfl, rfl⟩
  · exact ⟨rfl, rfl⟩

/-- Each command of a successful pass comes from the pass function on some
object of the list. -/
theorem passCmds_ok_mem (f : HitObject → Except Unit (List DrawCmd)) (l : List HitObject)
    (cs : List DrawCmd) (c : DrawCmd) (hok : passCmds f l = Except.ok cs) (hmem : c ∈ cs) :
    ∃ o ∈ l, ∃ cl, f o = Except.ok cl ∧ c ∈ cl := by
  induction l generalizing cs with
  | nil =>
      simp only [passCmds] at hok
      obtain rfl := (Except.ok.injEq _ _).mp hok.symm
      cases hmem
  | cons o rest ih =>
      cases hfo : f o with
      | error e =>
          simp only [passCmds, hfo] at hok
          exact Except.noConfusion hok
      | ok cl =>
          cases hrest : passCmds f rest with
          | error e =>
              simp only [passCmds, hfo, hrest] at hok
              exact Except.noConfusion hok
          | ok cls =>
              simp only [passCmds, hfo, hrest] at hok
              obtain rfl := (Except.ok.injEq _ _).mp hok.symm
              rcases List.mem_append.mp hmem with h | h
              · exact ⟨o, List.mem_cons_self _ _, cl, hfo, h⟩
              · obtain ⟨o', ho', cl', hfo', hc⟩ := ih cls hrest h
                exact ⟨o', List.mem_cons_of_mem _ ho', cl', hfo', hc⟩

/-- With zero lanes the lane-index modulo panics. -/
theorem laneIndex_zero (pos_x : ℚ) : laneIndex pos_x 0 = Except.error () := by
  rw [laneIndex, if_pos rfl]

/-- A pass panics as soon as any object of the list panics. -/
theorem passCmds_error_of_mem (f : HitObject → Except Unit (List DrawCmd))
    (l : List HitObject) (o : HitObject) (ho : o ∈ l) (herr : f o = Except.error ()) :
    passCmds f l = Except.error () := by
  induction l with
  | nil => cases ho
  | cons a rest ih =>
      rcases List.mem_cons.mp ho with rfl | ho'
      · simp only [passCmds, herr]
      · cases hfa : f a with
        | error e =>
            cases e
            simp only [passCmds, hfa]
        | ok cl =>
            simp only [passCmds, hfa, ih ho']

/-- A pass whose function succeeds on every object succeeds. -/
theorem passCmds_ok_of_all (f : HitObject → Except Unit (List DrawCmd)) (l : List HitObject)
    (hall : ∀ o ∈ l, ∃ cs, f o = Except.ok cs) :
    ∃ cs, passCmds f l = Except.ok cs := by
  induction l with
  | nil => exact ⟨[], rfl⟩
  | cons a rest ih =>
      obtain ⟨ca, ha⟩ := hall a (List.mem_cons_self _ _)
      obtain ⟨cs, hcs⟩ := ih (fun o ho => hall o (List.mem_cons_of_mem _ ho))
      exact ⟨ca ++ cs, by simp only [passCmds, ha, hcs]⟩

/-- The hold pass is total whenever keycount is non-zero. -/
theorem holdCmds_total (m : ManiaRenderer) (current scroll speed : ℚ) (keycount : ℕ)
    (hkc : keycount ≠ 0) (position : Pos2) (judgment_line_y : ℚ) (obj : HitObject) :
    ∃ cs, holdCmds m current scroll speed keycount position judgment_line_y obj =
      Except.ok cs := by
  obtain ⟨st, kind⟩ := obj
  have hli : ∀ px : ℚ, laneIndex px keycount =
      Except.ok (f32ToUsize (px / 512 * keycount) % keycount) :=
    fun px => by rw [laneIndex, if_neg hkc]
  cases kind with
  | hold px d =>
      simp only [holdCmds, hli px]
      by_cases hend : yProj judgment_line_y m.height current scroll speed (st + d) ≤
          judgment_line_y
      · exact ⟨_, by rw [if_pos hend]⟩
      · exact ⟨[], by rw [if_neg hend]⟩
  | circle px => exact ⟨[], rfl⟩
  | slider => exact ⟨[], rfl⟩
  | spinner => exact ⟨[], rfl⟩

/-- The trigger pass is total whenever keycount is non-zero. -/
theorem noteCmds_total (m : ManiaRenderer) (current scroll speed : ℚ) (keycount : ℕ)
    (hkc : keycount ≠ 0) (position : Pos2) (judgment_line_y : ℚ) (obj : HitObject) :
    ∃ cs, noteCmds m current scroll speed keycount position judgment_line_y obj =
      Except.ok cs := by
  obtain ⟨st, kind⟩ := obj
  have hli : ∀ px : ℚ, laneIndex px keycount =
      Except.ok (f32ToUsize (px / 512 * keycount) % keycount) :=
    fun px => by rw [laneIndex, if_neg hkc]
  by_cases hle : yProj judgment_line_y m.height current scroll speed st ≤ judgment_line_y
  · cases kind with
    | circle px =>
        simp only [noteCmds, if_pos hle, hli px]
        by_cases h0 : (0 : ℚ) ≤ yProj judgment_line_y m.height current scroll speed st
        · exact ⟨_, by rw [if_pos h0]⟩
        · exact ⟨[], by rw [if_neg h0]⟩
    | hold px d =>
        simp only [noteCmds, if_pos hle, hli px]
        by_cases h0 : (0 : ℚ) ≤ yProj judgment_line_y m.height current scroll speed st
        · exact ⟨_, by rw [if_pos h0]⟩
        · exact ⟨[], by rw [if_neg h0]⟩
    | slider => exact ⟨[], by simp only [noteCmds, if_pos hle]⟩
    | spinner => exact ⟨[], by simp only [noteCmds, if_pos hle]⟩
  · exact ⟨[], by simp only [noteCmds, if_neg hle]⟩

/-! ### Claim C1: the time-to-pixel projection formula -/

/-- C1: the renderer projects trigger times by exactly the spec's formula —
the inlined code formula `yProj` agrees with the spec formula `specY` on all
inputs, every trigger marker the trigger pass emits for an object is centered
at `specY` of the object's start time, and a hold's end cap sits at `specY`
of `start_time + duration`. -/
theorem C1_projection_formula (m : ManiaRenderer) (current scroll speed : ℚ) (keycount : ℕ)
    (position : Pos2) (judgment_line_y : ℚ) :
    (∀ playfield_height t : ℚ,
        yProj judgment_line_y playfield_height current scroll speed t =
          specY judgment_line_y playfield_height current scroll speed t)
    ∧ (∀ (obj : HitObject) (cmds : List DrawCmd) (cmd : DrawCmd),
        noteCmds m current scroll speed keycount position judgment_line_y obj = Except.ok cmds →
        cmd ∈ cmds →
        cmd.markerCenterY =
          some (specY judgment_line_y m.height current scroll speed obj.start_time))
    ∧ (∀ (start pos_x dur : ℚ) (cmds : List DrawCmd) (r : Rect) (c : Color),
        holdCmds m current scroll speed keycount position judgment_line_y
          ⟨start, HitObjectKind.hold pos_x dur⟩ = Except.ok cmds →
        DrawCmd.holdCap r c ∈ cmds →
        r.miny = specY judgment_line_y m.height current scroll speed (start + dur)) := by
  refine ⟨fun playfield_height t => rfl, ?_, ?_⟩
  · rintro ⟨st, kind⟩ cmds cmd hok hmem
    by_cases hle : yProj judgment_line_y m.height current scroll speed st ≤ judgment_line_y
    case neg =>
      simp only [noteCmds, if_neg hle] at hok
      obtain rfl := (Except.ok.injEq _ _).mp hok.symm
      cases hmem
    case pos =>
      cases kind with
      | circle pos_x =>
          cases hli : laneIndex pos_x keycount with
          | error e =>
              simp only [noteCmds, if_pos hle, hli] at hok
              exact Except.noConfusion hok
          | ok column =>
              simp only [noteCmds, if_pos hle, hli] at hok
              by_cases h0 : (0 : ℚ) ≤ yProj judgment_line_y m.height current scroll speed st
              · rw [if_pos h0] at hok
                obtain rfl := (Except.ok.injEq _ _).mp hok.symm
                rw [List.mem_singleton] at hmem
                subst hmem
                exact markerCenterY_drawNote m _ _
              · rw [if_neg h0] at hok
                obtain rfl := (Except.ok.injEq _ _).mp hok.symm
                cases hmem
      | hold pos_x dur =>
          cases hli : laneIndex pos_x keycount with
          | error e =>
              simp only [noteCmds, if_pos hle, hli] at hok
              exact Except.noConfusion hok
          | ok column =>
              simp only [noteCmds, if_pos hle, hli] at hok
              by_cases h0 : (0 : ℚ) ≤ yProj judgment_line_y m.height current scroll speed st
              · rw [if_pos h0] at hok
                obtain rfl := (Except.ok.injEq _ _).mp hok.symm
                rw [List.mem_singleton] at hmem
                subst hmem
                exact markerCenterY_drawNote m _ _
              · rw [if_neg h0] at hok
                obtain rfl := (Except.ok.injEq _ _).mp hok.symm
                cases hmem
      | slider =>
          simp only [noteCmds, if_pos hle] at hok
          obtain rfl := (Except.ok.injEq _ _).mp hok.symm
          cases hmem
      | spinner =>
          simp only [noteCmds, if_pos hle] at hok
          obtain rfl := (Except.ok.injEq _ _).mp hok.symm
          cases hmem
  · intro start pos_x dur cmds r c hok hmem
    cases hli : laneIndex pos_x keycount with
    | error e =>
        simp only [holdCmds, hli] at hok
        exact Except.noConfusion hok
    | ok column =>
        simp only [holdCmds, hli] at hok
        by_cases hend :
            yProj judgment_line_y m.height current scroll speed (start + dur) ≤ judgment_line_y
        · rw [if_pos hend] at hok
          obtain rfl := (Except.ok.injEq _ _).mp hok.symm
          rw [renderHold, if_pos hend] at hmem
          rcases List.mem_cons.mp hmem with h | h
          · exact DrawCmd.noConfusion h
          · rw [List.mem_singleton] at h
            obtain ⟨hr, hc⟩ := DrawCmd.holdCap.injEq .. |>.mp h.symm
            subst hr
            rfl
        · rw [if_neg hend] at hok
          obtain rfl := (Except.ok.injEq _ _).mp hok.symm
          cases hmem

/-- C1 witness: a circle at time 0 viewed at current time 500 with window
1000 ms and playfield height 800 projects to y = 300, and the emitted
marker's center is exactly `specY` there. -/
theorem C1_projection_formula_witness :
    (drawNote mDef 0 300).markerCenterY = some (specY 700 800 500 1000 1 0) := by
  refine (C1_projection_formula mDef 500 1000 1 1 ⟨0, 0⟩ 700).2.1 visibleCircle
    [drawNote mDef 0 300] (drawNote mDef 0 300) ?_ (List.mem_singleton.mpr rfl)
  norm_num [noteCmds, laneIndex, f32ToUsize, yProj, visibleCircle, mDef,
    ManiaRenderer.withSizes]

/-! ### Claim C2: holds whose end has passed the judgment line -/

/-- C2 (counterexample): a hold with start 0 and duration 100 ms, viewed at
current time 2000 (end long past the judgment line — its unclamped end
projection 1420 lies below the line at 700), is not rendered at all: the
render call returns only the static geometry, which contains no hold body or
cap rectangle.  This refutes the claim that such a hold still gets a clamped
body rectangle. -/
theorem C2_counterexample :
    (700 : ℚ) < yProj 700 mDef.height 2000 1000 1 (consumedHold.start_time + 100) ∧
    renderAt mDef [consumedHold] 2000 1000 1 1 ⟨0, 0⟩ = Except.ok (staticCmds mDef 1 ⟨0, 0⟩) ∧
    (staticCmds mDef 1 ⟨0, 0⟩).all (fun c => !c.isHoldRect) = true := by
  refine ⟨?_, ?_, ?_⟩
  · norm_num [yProj, consumedHold, mDef, ManiaRenderer.withSizes]
  · norm_num [renderAt, passCmds, holdCmds, noteCmds, laneIndex, f32ToUsize, yProj,
      consumedHold, mDef, ManiaRenderer.withSizes]
  · rfl

/-- C2 (amended): a hold whose true (unclamped) end projection lies past
(below) the judgment line is skipped by the hold pass entirely — it emits
neither a body rectangle nor an end cap, because `render_at` guards the
`render_hold` call with `end_y_pos <= judgment_line_y`. -/
theorem C2_consumed_hold_renders_nothing (m : ManiaRenderer) (current scroll speed : ℚ)
    (keycount : ℕ) (position : Pos2) (judgment_line_y : ℚ) (start pos_x dur : ℚ)
    (hkc : keycount ≠ 0)
    (hpast : judgment_line_y <
      yProj judgment_line_y m.height current scroll speed (start + dur)) :
    holdCmds m current scroll speed keycount position judgment_line_y
      ⟨start, HitObjectKind.hold pos_x dur⟩ = Except.ok [] := by
  have hli : laneIndex pos_x keycount =
      Except.ok (f32ToUsize (pos_x / 512 * keycount) % keycount) := by
    rw [laneIndex, if_neg hkc]
  simp only [holdCmds, hli]
  rw [if_neg (not_le.mpr hpast)]

/-- C2 witness: the consumed hold of the counterexample, via the amended
theorem. -/
theorem C2_consumed_hold_renders_nothing_witness :
    holdCmds mDef 2000 1000 1 1 ⟨0, 0⟩ 700 ⟨0, HitObjectKind.hold 0 100⟩ = Except.ok [] :=
  C2_consumed_hold_renders_nothing mDef 2000 1000 1 1 ⟨0, 0⟩ 700 0 0 100 (by norm_num)
    (by norm_num [yProj, mDef, ManiaRenderer.withSizes])

/-! ### Claim C3: current_time and the speed multiplier -/

/-- C3 (counterexample): with the reference instant at 0 and speed set to 2 via
set_speed, one elapsed second gives `current_time() = 1000`, not the elapsed
milliseconds multiplied by the stored speed (2000): the claim that
current_time returns elapsed time scaled by the speed multiplier is false. -/
theorem C3_counterexample :
    (Player.new 0 |>.setSpeed 2).currentTime 1 ≠
      max ((1 : ℚ) - ((Player.new 0).setSpeed 2).start_time) 0 * 1000 *
        ((Player.new 0).setSpeed 2).speed := by
  norm_num [Player.new, Player.setSpeed, Player.currentTime]

/-- C3 (amended): current_time() returns the elapsed milliseconds since the
reference instant unscaled; the result is independent of any speed multiplier
set via set_speed.  (Speed scaling happens instead inside the renderer's
projection, which divides event times by speed.) -/
theorem C3_current_time_unscaled (p : Player) (s now : ℚ) :
    (p.setSpeed s).currentTime now = max (now - p.start_time) 0 * 1000 := rfl

/-! ### Claim C4: seek round trip -/

/-- C4: for every non-negative t_ms and any prior speed setting,
set_current_time(t_ms) succeeds, an immediate current_time() at the same
instant returns exactly t_ms, and the speed field is untouched. -/
theorem C4_seek_round_trip (p : Player) (now t : ℚ) (ht : 0 ≤ t) :
    ∃ q : Player, p.setCurrentTime now t = Except.ok q ∧
      q.currentTime now = t ∧ q.speed = p.speed := by
  refine ⟨{ p with start_time := now - t / 1000 }, ?_, ?_, rfl⟩
  · rw [Player.setCurrentTime, if_neg]
    push_neg
    positivity
  · show max (now - (now - t / 1000)) 0 * 1000 = t
    rw [sub_sub_cancel, max_eq_left (by positivity)]
    exact div_mul_cancel₀ t (by norm_num)

/-- C4 witness: seeking to 5000 ms on a player whose speed was set to 2. -/
theorem C4_seek_round_trip_witness :
    ∃ q : Player, ((Player.new 0).setSpeed 2).setCurrentTime 7 5000 = Except.ok q ∧
      q.currentTime 7 = 5000 ∧ q.speed = ((Player.new 0).setSpeed 2).speed :=
  C4_seek_round_trip ((Player.new 0).setSpeed 2) 7 5000 (by norm_num)

/-! ### Claim C5: positivity of the stored configuration -/

/-- C5 (counterexample): the configuration surface stores non-positive
arguments verbatim — after `set_speed(0)` and `set_scroll_time(0)` the stored
speed and scroll window are 0, not positive, refuting the claim that they are
always > 0 after arbitrary argument sequences. -/
theorem C5_counterexample :
    (applyOps (Player.new 0) [ConfigOp.speed 0, ConfigOp.scroll 0]).speed = 0 ∧
    (applyOps (Player.new 0) [ConfigOp.speed 0, ConfigOp.scroll 0]).scroll_time_ms = 0 := by
  norm_num [applyOps, Player.new, Player.setSpeed, Player.setScrollTime]

/-- C5 (amended): set_speed and set_scroll_time neither reject nor clamp;
they store their arguments unchanged.  The stored speed and scroll window
therefore stay positive only under the extra hypothesis that the initial
values and every argument of the call sequence are positive. -/
theorem C5_positivity_needs_positive_args (p : Player) (ops : List ConfigOp)
    (hsp : 0 < p.speed) (hsc : 0 < p.scroll_time_ms)
    (hargs : ∀ op ∈ ops, 0 < op.arg) :
    0 < (applyOps p ops).speed ∧ 0 < (applyOps p ops).scroll_time_ms := by
  induction ops generalizing p with
  | nil => exact ⟨hsp, hsc⟩
  | cons op rest ih =>
      cases op with
      | speed s =>
          refine ih (p.setSpeed s) ?_ ?_ (fun o ho => hargs o (List.mem_cons_of_mem _ ho))
          · exact hargs (ConfigOp.speed s) (List.mem_cons_self _ _)
          · exact hsc
      | scroll ms =>
          refine ih (p.setScrollTime ms) ?_ ?_ (fun o ho => hargs o (List.mem_cons_of_mem _ ho))
          · exact hsp
          · exact hargs (ConfigOp.scroll ms) (List.mem_cons_self _ _)

/-- C5 witness: a concrete call sequence with positive arguments keeps the
stored configuration positive. -/
theorem C5_positivity_needs_positive_args_witness :
    0 < (applyOps (Player.new 0) [ConfigOp.speed 2, ConfigOp.scroll 500]).speed ∧
    0 < (applyOps (Player.new 0) [ConfigOp.speed 2, ConfigOp.scroll 500]).scroll_time_ms := by
  refine C5_positivity_needs_positive_args (Player.new 0) _ (by norm_num [Player.new])
    (by norm_num [Player.new]) ?_
  intro op hop
  simp only [List.mem_cons, List.not_mem_nil, or_false] at hop
  rcases hop with rfl | rfl <;> norm_num [ConfigOp.arg]

/-! ### Claim C6: lane-index periodicity -/

/-- C6 (counterexample): lane-index periodicity fails for raw coordinates
that wrap below zero, because the Rust `as usize` cast saturates negative
floats to 0.  At coordinate 384 with lane_count 2 the lane is 1, but at
384 + 512·(-1) = -128 the saturating cast yields lane 0. -/
theorem C6_counterexample :
    laneIndex ((384 : ℚ) + 512 * ((-1 : ℤ) : ℚ)) 2 ≠ laneIndex (384 : ℚ) 2 := by
  have h1 : laneIndex ((384 : ℚ) + 512 * ((-1 : ℤ) : ℚ)) 2 = Except.ok 0 := by
    norm_num [laneIndex, f32ToUsize]
  have h2 : laneIndex (384 : ℚ) 2 = Except.ok 1 := by
    norm_num [laneIndex, f32ToUsize]
  rw [h1, h2]
  simp

/-- On inputs where the saturating float-to-usize cast is exact (non-negative
and at most usize::MAX), it is the floor. -/
theorem f32ToUsize_of_nonneg_le (q : ℚ) (h0 : 0 ≤ q) (h1 : q ≤ 2 ^ 64 - 1) :
    f32ToUsize q = (⌊q⌋).toNat := by
  rw [f32ToUsize, max_eq_left h0]
  apply min_eq_left
  rw [Int.toNat_le]
  calc ⌊q⌋ ≤ ⌊(2 : ℚ) ^ 64 - 1⌋ := Int.floor_le_floor h1
  _ = ((2 ^ 64 - 1 : ℕ) : ℤ) := by
        rw [show ((2 : ℚ) ^ 64 - 1) = (((2 ^ 64 - 1 : ℕ) : ℤ) : ℚ) by push_cast; ring,
          Int.floor_intCast]

/-- C6 (amended): the lane index is invariant under adding 512·k to the raw
coordinate provided both coordinates stay in the range where the `as usize`
cast is exact: both are non-negative and both scaled values
`coord / 512 · lane_count` stay at most usize::MAX, so no saturation occurs.
(Outside that range the saturating cast breaks periodicity, per the
counterexample.) -/
theorem C6_lane_periodicity (coord : ℚ) (k : ℤ) (lane_count : ℕ) (hn : lane_count ≠ 0)
    (h0 : 0 ≤ coord) (h1 : 0 ≤ coord + 512 * k)
    (h2 : coord / 512 * lane_count ≤ 2 ^ 64 - 1)
    (h3 : (coord + 512 * k) / 512 * lane_count ≤ 2 ^ 64 - 1) :
    laneIndex (coord + 512 * k) lane_count = laneIndex coord lane_count := by
  rw [laneIndex, laneIndex, if_neg hn, if_neg hn]
  have hx0 : 0 ≤ coord / 512 * (lane_count : ℚ) :=
    mul_nonneg (div_nonneg h0 (by norm_num)) (Nat.cast_nonneg _)
  have hy0 : 0 ≤ (coord + 512 * k) / 512 * (lane_count : ℚ) :=
    mul_nonneg (div_nonneg h1 (by norm_num)) (Nat.cast_nonneg _)
  have key : (coord + 512 * (k : ℚ)) / 512 * (lane_count : ℚ) =
      coord / 512 * (lane_count : ℚ) + ((k * lane_count : ℤ) : ℚ) := by
    push_cast
    ring
  rw [f32ToUsize_of_nonneg_le _ hy0 h3, f32ToUsize_of_nonneg_le _ hx0 h2, key,
    Int.floor_add_int]
  have hA : 0 ≤ ⌊coord / 512 * (lane_count : ℚ)⌋ := Int.floor_nonneg.mpr hx0
  have hB : 0 ≤ ⌊coord / 512 * (lane_count : ℚ)⌋ + k * lane_count := by
    rw [← Int.floor_add_int, ← key]
    exact Int.floor_nonneg.mpr hy0
  have hcast : (((⌊coord / 512 * (lane_count : ℚ)⌋ + k * lane_count).toNat % lane_count : ℕ) : ℤ) =
      ((⌊coord / 512 * (lane_count : ℚ)⌋.toNat % lane_count : ℕ) : ℤ) := by
    push_cast
    rw [Int.toNat_of_nonneg hB, Int.toNat_of_nonneg hA, Int.add_mul_emod_self]
  exact congrArg Except.ok (Nat.cast_injective hcast)

/-- C6 witness: coordinate 384 shifted by one full wrap (k = 1) keeps lane 1
in a 2-lane layout. -/
theorem C6_lane_periodicity_witness :
    laneIndex ((384 : ℚ) + 512 * ((1 : ℤ) : ℚ)) 2 = laneIndex (384 : ℚ) 2 :=
  C6_lane_periodicity 384 1 2 (by norm_num) (by norm_num) (by norm_num)
    (by norm_num) (by norm_num)

/-! ### Claim C10: seeking to a negative time panics -/

/-- C10: for every time_ms < 0, set_current_time(time_ms) panics, because
`Duration::from_secs_f64(time_ms / 1000.0)` is given a negative argument. -/
theorem C10_negative_seek_panics (p : Player) (now time_ms : ℚ) (ht : time_ms < 0) :
    p.setCurrentTime now time_ms = Except.error () := by
  rw [Player.setCurrentTime, if_pos]
  exact div_neg_of_neg_of_pos ht (by norm_num)

/-- C10 witness: seeking to -1 ms panics. -/
theorem C10_negative_seek_panics_witness :
    (Player.new 0).setCurrentTime 5 (-1) = Except.error () :=
  C10_negative_seek_panics (Player.new 0) 5 (-1) (by norm_num)

/-! ### Claim C7: visibility culling of trigger markers -/

/-- C7: for every circle or hold event, the trigger pass emits a marker for
it exactly when its projected y lies within [0, judgment_line_y]; outside
that interval the note is culled for the frame. -/
theorem C7_visibility_culling (m : ManiaRenderer) (current scroll speed : ℚ) (keycount : ℕ)
    (position : Pos2) (judgment_line_y : ℚ) (obj : HitObject) (hkc : keycount ≠ 0)
    (hkind : (∃ px, obj.kind = HitObjectKind.circle px) ∨
      (∃ px d, obj.kind = HitObjectKind.hold px d))
    (cmds : List DrawCmd)
    (hok : noteCmds m current scroll speed keycount position judgment_line_y obj = Except.ok cmds) :
    (∃ cmd ∈ cmds, cmd.isMarker = true) ↔
      (0 ≤ yProj judgment_line_y m.height current scroll speed obj.start_time ∧
        yProj judgment_line_y m.height current scroll speed obj.start_time ≤ judgment_line_y) := by
  obtain ⟨st, kind⟩ := obj
  have hli : ∀ px : ℚ, laneIndex px keycount =
      Except.ok (f32ToUsize (px / 512 * keycount) % keycount) := by
    intro px
    rw [laneIndex, if_neg hkc]
  by_cases hle : yProj judgment_line_y m.height current scroll speed st ≤ judgment_line_y
  case neg =>
    simp only [noteCmds, if_neg hle] at hok
    obtain rfl := (Except.ok.injEq _ _).mp hok.symm
    constructor
    · rintro ⟨cmd, hmem, -⟩
      cases hmem
    · rintro ⟨-, habs⟩
      exact absurd habs hle
  case pos =>
    rcases hkind with ⟨px, hk⟩ | ⟨px, d, hk⟩ <;> dsimp only at hk <;> subst hk
    · simp only [noteCmds, if_pos hle, hli px] at hok
      by_cases h0 : (0 : ℚ) ≤ yProj judgment_line_y m.height current scroll speed st
      · rw [if_pos h0] at hok
        obtain rfl := (Except.ok.injEq _ _).mp hok.symm
        exact ⟨fun _ => ⟨h0, hle⟩,
          fun _ => ⟨_, List.mem_singleton.mpr rfl, isMarker_drawNote m _ _⟩⟩
      · rw [if_neg h0] at hok
        obtain rfl := (Except.ok.injEq _ _).mp hok.symm
        constructor
        · rintro ⟨cmd, hmem, -⟩
          cases hmem
        · rintro ⟨habs, -⟩
          exact absurd habs h0
    · simp only [noteCmds, if_pos hle, hli px] at hok
      by_cases h0 : (0 : ℚ) ≤ yProj judgment_line_y m.height current scroll speed st
      · rw [if_pos h0] at hok
        obtain rfl := (Except.ok.injEq _ _).mp hok.symm
        exact ⟨fun _ => ⟨h0, hle⟩,
          fun _ => ⟨_, List.mem_singleton.mpr rfl, isMarker_drawNote m _ _⟩⟩
      · rw [if_neg h0] at hok
        obtain rfl := (Except.ok.injEq _ _).mp hok.symm
        constructor
        · rintro ⟨cmd, hmem, -⟩
          cases hmem
        · rintro ⟨habs, -⟩
          exact absurd habs h0

/-- C7 witness: a circle at time 0 viewed at current time 500 projects to
y = 300 ∈ [0, 700] and its marker is emitted. -/
theorem C7_visibility_culling_witness :
    (∃ cmd ∈ [drawNote mDef 0 300], DrawCmd.isMarker cmd = true) ↔
      (0 ≤ yProj 700 mDef.height 500 1000 1 visibleCircle.start_time ∧
        yProj 700 mDef.height 500 1000 1 visibleCircle.start_time ≤ 700) :=
  C7_visibility_culling mDef 500 1000 1 1 ⟨0, 0⟩ 700 visibleCircle (by norm_num)
    (Or.inl ⟨0, rfl⟩) [drawNote mDef 0 300]
    (by norm_num [noteCmds, laneIndex, f32ToUsize, yProj, visibleCircle, mDef,
      ManiaRenderer.withSizes])

/-! ### Claim C8: draw-order layering -/

/-- C8: in the command sequence of one render call, every hold body or cap
rectangle precedes every trigger marker — holds are drawn in a first pass
over all lanes, and all trigger markers (including a hold's own start marker)
are drawn in the later trigger pass, so no hold body occludes a marker. -/
theorem C8_draw_order (m : ManiaRenderer) (hit_objects : List HitObject)
    (current scroll speed : ℚ) (keycount : ℕ) (position : Pos2) (cmds : List DrawCmd)
    (hok : renderAt m hit_objects current scroll speed keycount position = Except.ok cmds)
    (i j : ℕ) (hi : i < cmds.length) (hj : j < cmds.length)
    (hhold : (cmds.get ⟨i, hi⟩).isHoldRect = true)
    (hmark : (cmds.get ⟨j, hj⟩).isMarker = true) :
    i < j := by
  rw [List.get_eq_getElem] at hhold hmark
  simp only [Fin.val_mk] at hhold hmark
  cases hit_objects with
  | nil =>
      simp only [renderAt] at hok
      obtain rfl := (Except.ok.injEq _ _).mp hok.symm
      have := (mem_staticCmds m keycount position _ (List.getElem_mem hi)).2
      rw [hhold] at this
      exact Bool.noConfusion this
  | cons o rest =>
      simp only [renderAt] at hok
      cases hh : passCmds
          (holdCmds m current scroll speed keycount position (position.y + m.height - 100))
          (o :: rest) with
      | error e =>
          rw [hh] at hok
          exact Except.noConfusion hok
      | ok holds =>
          cases hn : passCmds
              (noteCmds m current scroll speed keycount position (position.y + m.height - 100))
              (o :: rest) with
          | error e =>
              rw [hh, hn] at hok
              exact Except.noConfusion hok
          | ok notes =>
              rw [hh, hn] at hok
              obtain rfl := (Except.ok.injEq _ _).mp hok.symm
              have hmarkerA : ∀ c ∈ staticCmds m keycount position ++ holds,
                  c.isMarker = false := by
                intro c hc
                rcases List.mem_append.mp hc with hc | hc
                · exact (mem_staticCmds m keycount position c hc).1
                · obtain ⟨o', -, cl, hcl, hc'⟩ := passCmds_ok_mem _ _ _ _ hh hc
                  exact (holdCmds_no_marker m current scroll speed keycount position _ o' cl c
                    hcl hc').1
              have hrectN : ∀ c ∈ notes, c.isHoldRect = false := by
                intro c hc
                obtain ⟨o', -, cl, hcl, hc'⟩ := passCmds_ok_mem _ _ _ _ hn hc
                exact (noteCmds_no_holdRect m current scroll speed keycount position _ o' cl c
                  hcl hc').1
              have hilt : i < (staticCmds m keycount position ++ holds).length := by
                by_contra hcontra
                push_neg at hcontra
                rw [List.getElem_append_right hcontra] at hhold
                have hlt : i - (staticCmds m keycount position ++ holds).length <
                    notes.length := by
                  rw [List.length_append] at hi
                  omega
                have := hrectN _ (List.getElem_mem hlt)
                rw [hhold] at this
                exact Bool.noConfusion this
              have hjge : (staticCmds m keycount position ++ holds).length ≤ j := by
                by_contra hcontra
                push_neg at hcontra
                rw [List.getElem_append_left hcontra] at hmark
                have := hmarkerA _ (List.getElem_mem hcontra)
                rw [hmark] at this
                exact Bool.noConfusion this
              omega

/-- C8 witness: one actively-held hold at current time 1000 renders static
geometry (indices 0-1), its hold body and cap (indices 2-3), then its start
marker (index 4); the hold rectangles indeed precede the marker. -/
theorem C8_draw_order_witness : (2 : ℕ) < 4 :=
  C8_draw_order mDef [activeHold] 1000 1000 1 1 ⟨0, 0⟩
    [DrawCmd.columnRect ⟨0, 0, 100, 800⟩ (20, 20, 20),
     DrawCmd.judgmentSeg ⟨0, 700⟩ ⟨100, 700⟩ 2 (255, 255, 255),
     DrawCmd.holdBody ⟨30, -1700, 40, 2400⟩ (200, 200, 200),
     DrawCmd.holdCap ⟨30, -1700, 40, 12⟩ (0, 174, 255),
     DrawCmd.noteRect ⟨30, 2775 / 4, 40, 25 / 2⟩ (0, 174, 255)]
    (by norm_num [renderAt, staticCmds, passCmds, holdCmds, noteCmds, laneIndex, f32ToUsize,
      yProj, renderHold, drawNote, Rect.fromMinSize, Rect.fromCenterSize, activeHold, mDef,
      ManiaRenderer.withSizes, NoteStyle.default, grayFill, whiteColor, colorFromRgb,
      List.range_succ, List.range_zero])
    2 4 (by norm_num) (by norm_num) rfl rfl

/-! ### Claim C9: keycount zero and lane-index totality -/

/-- C9 (counterexample): with keycount 0 and the non-empty hit-object list
[circle at time 0] viewed at current time 2000, the circle's projected y lies
below the judgment line, the lane computation is never reached, and the
render call completes without panicking — refuting the claim that keycount 0
with a non-empty list always panics. -/
theorem C9_counterexample :
    (renderAt mDef [pastCircle] 2000 1000 1 0 ⟨0, 0⟩).isOk = true := by
  norm_num [renderAt, passCmds, holdCmds, noteCmds, laneIndex, f32ToUsize, yProj, pastCircle,
    mDef, ManiaRenderer.withSizes, Except.isOk, Except.toBool]

/-- C9 (amended): with keycount 0 the render call panics when the list
contains a hold (its lane index is computed before any visibility test), but
not necessarily for an arbitrary non-empty list — a circle whose projected y
is below the judgment line never reaches the modulo.  For every non-zero
keycount the lane computation is total with result in [0, keycount), and the
whole render call succeeds. -/
theorem C9_keycount_zero_behavior (m : ManiaRenderer) (hit_objects : List HitObject)
    (current scroll speed : ℚ) (position : Pos2) :
    ((∃ o ∈ hit_objects, ∃ px d, o.kind = HitObjectKind.hold px d) →
        renderAt m hit_objects current scroll speed 0 position = Except.error ())
    ∧ (∀ keycount : ℕ, keycount ≠ 0 → ∀ pos_x : ℚ,
        ∃ lane, laneIndex pos_x keycount = Except.ok lane ∧ lane < keycount)
    ∧ (∀ keycount : ℕ, keycount ≠ 0 →
        (renderAt m hit_objects current scroll speed keycount position).isOk = true) := by
  refine ⟨?_, ?_, ?_⟩
  · rintro ⟨o, ho, px, d, hk⟩
    have herr : holdCmds m current scroll speed 0 position (position.y + m.height - 100) o =
        Except.error () := by
      obtain ⟨st, kind⟩ := o
      dsimp only at hk
      subst hk
      simp only [holdCmds, laneIndex_zero]
    cases hit_objects with
    | nil => cases ho
    | cons a rest =>
        simp only [renderAt]
        rw [passCmds_error_of_mem _ _ o ho herr]
  · intro kc hkc px
    exact ⟨_, by rw [laneIndex, if_neg hkc], Nat.mod_lt _ (Nat.pos_of_ne_zero hkc)⟩
  · intro kc hkc
    cases hit_objects with
    | nil => rfl
    | cons a rest =>
        obtain ⟨holds, hh⟩ := passCmds_ok_of_all
          (holdCmds m current scroll speed kc position (position.y + m.height - 100)) (a :: rest)
          (fun o _ => holdCmds_total m current scroll speed kc hkc position
            (position.y + m.height - 100) o)
        obtain ⟨notes, hn⟩ := passCmds_ok_of_all
          (noteCmds m current scroll speed kc position (position.y + m.height - 100)) (a :: rest)
          (fun o _ => noteCmds_total m current scroll speed kc hkc position
            (position.y + m.height - 100) o)
        simp only [renderAt, hh, hn]
        rfl

/-- C9 witness: with keycount 0, a list containing a hold does panic. -/
theorem C9_keycount_zero_behavior_witness :
    renderAt mDef [activeHold] 1000 1000 1 0 ⟨0, 0⟩ = Except.error () :=
  (C9_keycount_zero_behavior mDef [activeHold] 1000 1000 1 ⟨0, 0⟩).1
    ⟨activeHold, List.mem_singleton.mpr rfl, 0, 3000, rfl⟩

end RosuRenderer
